import Mathlib

/-! # go-basic-proxy: stats ledger, backend pool and connection handler

A shallow embedding of `part3/main.go` (proxy that dials the backend for every
request) and `part4/main.go` (the same proxy with a pool of idle backend
connections), followed by theorems about the embedded definitions.

Conventions of the embedding:

* Go `int64` values are integers reduced to the signed 64-bit range by
  `wrapInt64`; `add64` is the `+` of Go on `int64`.
* A Go `map[string]T` is a function `String → Option T` (`none` = key absent);
  reading an absent `int64` entry gives the zero value `0`.
* The global variables `requestBytes` and `backendQueue` are passed explicitly.
* The operations of the `net`, `bufio` and `net/http` packages are not part of
  the repository. What they return in one iteration of the handler loop is
  supplied by a `Cycle` record, and a client connection is the list of the
  `Cycle`s of its successive requests; when the list is exhausted the stream
  has ended and `http.ReadRequest` returns `io.EOF`.
-/

namespace GoBasicProxy

/-! ## Machine integers -/

/-- Reduction of an integer to the two's complement range of `int64`. -/
def wrapInt64 (x : Int) : Int := (x + 2 ^ 63) % 2 ^ 64 - 2 ^ 63

/-- Addition of Go on `int64` operands (wraps around on overflow). -/
def add64 (a b : Int) : Int := wrapInt64 (a + b)

/-! ## Library data the program handles -/

/-- Errors returned by library calls; `EOF` is `io.EOF`. -/
inductive Error where
  | EOF
  | other (msg : String)
  deriving DecidableEq, Repr

/-- Go `url.URL`, reduced to the field the program reads. -/
structure url.URL where
  Path : String
  deriving DecidableEq, Repr

/-- Go `http.Header`: a map from canonical header names to their values. -/
abbrev http.Header := String → Option (List String)

/-- The method `Header.Set(key, value)`: replaces the values of `key` by the single value
`value`. The program only passes the key `X-Bytes`, which is already in
canonical form, so the canonicalisation of the key is the identity here. -/
def http.Header.Set (h : http.Header) (key value : String) : http.Header :=
  fun k => if k = key then some [value] else h k

/-- Go `http.Request`, reduced to method, URL, header and body. -/
structure http.Request where
  Method : String
  URL : url.URL
  Header : http.Header
  Body : List Nat

/-- Go `http.Response`, reduced to status code, header, body and declared
content length. `ContentLength` is an `int64`; the library sets it to `-1`
when the length is unknown. -/
structure http.Response where
  StatusCode : Int
  Header : http.Header
  Body : List Nat
  ContentLength : Int

/-- The function `strconv.FormatInt(i, 10)`: the decimal representation of `i`, with a
leading minus sign for a negative number. -/
def strconv.FormatInt (i : Int) : String :=
  if i < 0 then "-" ++ Nat.repr i.natAbs else Nat.repr i.natAbs

/-! ## Stats ledger (`requestBytes`, `updateStats`) -/

/-- The type of `requestBytes`: `map[string]int64`. -/
abbrev Ledger := String → Option Int

/-- The ledger after `init`: `make(map[string]int64)`. -/
def Ledger.init : Ledger := fun _ => none

/-- Reading `requestBytes[path]`: the stored value, or the zero value when the
key is absent. -/
def Ledger.read (requestBytes : Ledger) (path : String) : Int :=
  (requestBytes path).getD 0

/-- Assignment `requestBytes[path] = bytes`. -/
def Ledger.store (requestBytes : Ledger) (path : String) (bytes : Int) : Ledger :=
  fun q => if q = path then some bytes else requestBytes q

/-- The function `updateStats` of `part3/main.go` (lines 20-27) and `part4/main.go`
(lines 29-36); the two bodies are the same text. The body runs with
`requestLock` held, so it is one atomic step on the ledger. Returns the value
of `bytes` and the ledger after the call. -/
def updateStats (requestBytes : Ledger) (req : http.Request) (resp : http.Response) :
    Int × Ledger :=
  let bytes := add64 (requestBytes.read req.URL.Path) resp.ContentLength
  (bytes, requestBytes.store req.URL.Path bytes)

/-- A sequence of `updateStats` calls taking effect one after the other, in
the order of the list: the values returned, and the ledger at the end. -/
def runStats (requestBytes : Ledger) :
    List (http.Request × http.Response) → List Int × Ledger
  | [] => ([], requestBytes)
  | c :: cs =>
    let r := updateStats requestBytes c.1 c.2
    let rs := runStats r.2 cs
    (r.1 :: rs.1, rs.2)

/-- Sum of the content lengths of the calls of a sequence made for `path`. -/
def pathBytes (path : String) (calls : List (http.Request × http.Response)) : Int :=
  ((calls.filter (fun c => decide (c.1.URL.Path = path))).map
    (fun c => c.2.ContentLength)).sum

/-! ## Backend pool (`backendQueue`, `getBackend`, `queueBackend`) -/

/-- The struct `Backend`: a connection (identified by a number) with the
buffered reader and writer built over it. -/
structure Backend where
  Conn : Nat
  deriving DecidableEq, Repr

/-- Capacity of `backendQueue`: `make(chan *Backend, 10)`. -/
def backendQueueCap : Nat := 10

/-- The pool after `init`: an empty channel. -/
def backendQueueInit : List Backend := []

/-- The function `getBackend` of `part4/main.go` (lines 38-53), at the instant its `select`
commits. `backendQueue` is the content of the channel at that instant, oldest
element first. The receive case can proceed only when the channel is not
empty; `timedOut` says that the 100 ms timer fired first, and with an empty
channel only the timer can end the wait. In the timer case `dial` is the
result of `net.Dial`. Returns the channel afterwards and the pair the function
returns. -/
def getBackend (backendQueue : List Backend) (timedOut : Bool) (dial : Except Error Nat) :
    List Backend × Except Error Backend :=
  match timedOut, backendQueue with
  | false, be :: rest => (rest, .ok be)
  | _, _ =>
    match dial with
    | .error err => (backendQueue, .error err)
    | .ok conn => (backendQueue, .ok ⟨conn⟩)

/-- The function `queueBackend` of `part4/main.go` (lines 55-62), at the instant its
`select` commits. The send case can proceed only when the channel holds fewer
elements than its capacity; `timedOut` says that the 1 s timer fired first,
and with a full channel only the timer can end the wait. Returns the channel
afterwards and the connection closed by `be.Close()`, if any. -/
def queueBackend (backendQueue : List Backend) (be : Backend) (timedOut : Bool) :
    List Backend × Option Backend :=
  if timedOut = false ∧ backendQueue.length < backendQueueCap then
    (backendQueue ++ [be], none)
  else
    (backendQueue, some be)

/-- One operation on the pool by some goroutine. -/
inductive PoolOp where
  | acquire (timedOut : Bool) (dial : Except Error Nat)
  | release (be : Backend) (timedOut : Bool)

/-- The pool as the operations leave it: the idle connections in the channel
and the connections closed by `queueBackend`. -/
structure Pool where
  backendQueue : List Backend
  closed : List Backend

/-- The pool after `init`. -/
def Pool.init : Pool := ⟨backendQueueInit, []⟩

/-- Effect of one pool operation. -/
def Pool.step (s : Pool) : PoolOp → Pool
  | .acquire timedOut dial =>
    { s with backendQueue := (getBackend s.backendQueue timedOut dial).1 }
  | .release be timedOut =>
    let r := queueBackend s.backendQueue be timedOut
    { backendQueue := r.1
      closed := match r.2 with
        | some c => s.closed ++ [c]
        | none => s.closed }

/-- Effect of a sequence of pool operations, in the order they commit. -/
def Pool.run (s : Pool) (ops : List PoolOp) : Pool := ops.foldl Pool.step s

/-! ## Connection handler -/

/-- Lines written by `log.Printf`. -/
inductive LogLine where
  | failedToReadRequest (err : Error)
  | proxied (path : String) (status : Int)
  deriving DecidableEq, Repr

namespace Part3

/-- What the library calls return in one iteration of the loop of
`handleConnection` in `part3/main.go`. `none` for a write is a `nil` error. -/
structure Cycle where
  readRequest : Except Error http.Request
  dial : Except Error Nat
  reqWrite : Option Error
  readResponse : Except Error http.Response
  respWrite : Option Error

/-- What a run of `handleConnection` has done so far. -/
structure State where
  requestBytes : Ledger
  readCalls : Nat
  written : List http.Response
  log : List LogLine
  closed : Bool

/-- The function `handleConnection` of `part3/main.go` (lines 42-68). `written` collects the
responses for which `resp.Write(conn)` returned no error; `closed` is set by
the deferred `conn.Close()`. -/
def handleConnection : List Cycle → State → State
  | [], st => { st with readCalls := st.readCalls + 1, closed := true }
  | c :: rest, st =>
    let st := { st with readCalls := st.readCalls + 1 }
    match c.readRequest with
    | .error err =>
      if err ≠ Error.EOF then
        { st with log := st.log ++ [.failedToReadRequest err], closed := true }
      else
        { st with closed := true }
    | .ok req =>
      match c.dial with
      | .error _ => handleConnection rest st
      | .ok _ =>
        match c.reqWrite with
        | some _ => handleConnection rest st
        | none =>
          match c.readResponse with
          | .error _ => handleConnection rest st
          | .ok resp =>
            let r := updateStats st.requestBytes req resp
            let resp := { resp with
              Header := http.Header.Set resp.Header "X-Bytes" (strconv.FormatInt r.1) }
            match c.respWrite with
            | some _ => handleConnection rest { st with requestBytes := r.2 }
            | none =>
              handleConnection rest { st with
                requestBytes := r.2
                written := st.written ++ [resp]
                log := st.log ++ [.proxied req.URL.Path resp.StatusCode] }

end Part3

namespace Part4

/-- What the library calls return in one iteration of the loop of
`handleConnection` in `part4/main.go`. `backendQueue` is the content of the
shared channel when the `select` of `getBackend` commits and `timedOut` says
whether its timer fired first. `none` for a write is a `nil` error. -/
structure Cycle where
  readRequest : Except Error http.Request
  backendQueue : List Backend
  timedOut : Bool
  dial : Except Error Nat
  reqWrite : Option Error
  readResponse : Except Error http.Response
  respWrite : Option Error

/-- What a run of `handleConnection` has done so far. `spawned` lists the
backends handed to `go queueBackend(be)`. -/
structure State where
  requestBytes : Ledger
  readCalls : Nat
  written : List http.Response
  log : List LogLine
  spawned : List Backend
  closed : Bool

/-- The function `handleConnection` of `part4/main.go` (lines 77-106). `written` collects the
responses for which `resp.Write(conn)` returned no error; `closed` is set by
the deferred `conn.Close()`. The result of `be.Writer.Flush()` is discarded by
the source, and the last step of an iteration is `go queueBackend(be)`. -/
def handleConnection : List Cycle → State → State
  | [], st => { st with readCalls := st.readCalls + 1, closed := true }
  | c :: rest, st =>
    let st := { st with readCalls := st.readCalls + 1 }
    match c.readRequest with
    | .error err =>
      if err ≠ Error.EOF then
        { st with log := st.log ++ [.failedToReadRequest err], closed := true }
      else
        { st with closed := true }
    | .ok req =>
      match (getBackend c.backendQueue c.timedOut c.dial).2 with
      | .error _ => { st with closed := true }
      | .ok be =>
        let st : State :=
          match c.reqWrite with
          | some _ => st
          | none =>
            match c.readResponse with
            | .error _ => st
            | .ok resp =>
              let r := updateStats st.requestBytes req resp
              let resp := { resp with
                Header := http.Header.Set resp.Header "X-Bytes" (strconv.FormatInt r.1) }
              match c.respWrite with
              | some _ => { st with requestBytes := r.2 }
              | none =>
                { st with
                  requestBytes := r.2
                  written := st.written ++ [resp]
                  log := st.log ++ [LogLine.proxied req.URL.Path resp.StatusCode] }
        handleConnection rest { st with spawned := st.spawned ++ [be] }

end Part4

/-! ## Concrete inputs -/

/-- The state of a handler that starts on a fresh process. -/
def Part3.State.init : Part3.State :=
  { requestBytes := Ledger.init, readCalls := 0, written := [], log := [], closed := false }

/-- The state of a handler that starts on a fresh process. -/
def Part4.State.init : Part4.State :=
  { requestBytes := Ledger.init, readCalls := 0, written := [], log := [], spawned := [],
    closed := false }

/-- The request `GET path HTTP/1.1` without headers or body. -/
def getRequest (path : String) : http.Request :=
  { Method := "GET", URL := ⟨path⟩, Header := fun _ => none, Body := [] }

/-- A `200 OK` response with a body of `n` zero bytes that declares
`Content-Length: n`. -/
def okResponse (n : Nat) : http.Response :=
  { StatusCode := 200
    Header := fun k => if k = "Content-Length" then some [Nat.repr n] else none
    Body := List.replicate n 0
    ContentLength := n }

/-- A `200 OK` response whose length is unknown to the library. -/
def streamingResponse : http.Response :=
  { StatusCode := 200
    Header := fun k => if k = "Transfer-Encoding" then some ["chunked"] else none
    Body := [104, 105]
    ContentLength := -1 }

/-- A `200 OK` response declaring the largest content length an `int64` holds. -/
def hugeResponse : http.Response :=
  { StatusCode := 200, Header := fun _ => none, Body := [], ContentLength := 2 ^ 63 - 1 }

/-- An iteration of the `part3` loop in which every library call succeeds: the
request is `GET path`, and the backend answers `200 OK` with `n` bytes. -/
def Part3.okCycle (path : String) (conn : Nat) (n : Nat) : Part3.Cycle :=
  { readRequest := .ok (getRequest path)
    dial := .ok conn
    reqWrite := none
    readResponse := .ok (okResponse n)
    respWrite := none }

/-- An iteration of the `part4` loop in which every library call succeeds: the
request is `GET path`, the pool holds `queue` when the backend is acquired,
and the backend answers `200 OK` with `n` bytes. -/
def Part4.okCycle (path : String) (queue : List Backend) (conn : Nat) (n : Nat) :
    Part4.Cycle :=
  { readRequest := .ok (getRequest path)
    backendQueue := queue
    timedOut := false
    dial := .ok conn
    reqWrite := none
    readResponse := .ok (okResponse n)
    respWrite := none }

/-- An iteration of the `part4` loop in which the pool is empty and the
backend cannot be reached. -/
def Part4.unreachableCycle (path : String) : Part4.Cycle :=
  { readRequest := .ok (getRequest path)
    backendQueue := []
    timedOut := true
    dial := .error (.other "connection refused")
    reqWrite := none
    readResponse := .error .EOF
    respWrite := none }

/-- A pool filled to its capacity. -/
def fullQueue : List Backend := (List.range 10).map Backend.mk

/-! ## Lemmas on `int64` arithmetic and on the ledger -/

theorem wrapInt64_of_fits (x : Int) (h : -2 ^ 63 ≤ x ∧ x < 2 ^ 63) : wrapInt64 x = x := by
  unfold wrapInt64
  omega

theorem wrapInt64_add_left (a b : Int) : wrapInt64 (wrapInt64 a + b) = wrapInt64 (a + b) := by
  unfold wrapInt64
  omega

theorem Ledger.store_same (m : Ledger) (p : String) (v : Int) : m.store p v p = some v := by
  simp [Ledger.store]

theorem Ledger.store_other (m : Ledger) (p q : String) (v : Int) (h : q ≠ p) :
    m.store p v q = m q := by
  simp [Ledger.store, h]

theorem Ledger.read_store_same (m : Ledger) (p : String) (v : Int) :
    Ledger.read (m.store p v) p = v := by
  simp [Ledger.read, Ledger.store]

theorem Ledger.read_store_other (m : Ledger) (p q : String) (v : Int) (h : q ≠ p) :
    Ledger.read (m.store p v) q = m.read q := by
  simp [Ledger.read, Ledger.store, h]

/-- After a non-empty sequence of calls that are all for path `p`, the entry
of `p` and the value returned by the last call are both the wrapped sum of the
previous total and all content lengths. -/
theorem runStats_same_path (p : String) :
    ∀ (cs : List (http.Request × http.Response)) (c : http.Request × http.Response)
      (m : Ledger), (∀ x ∈ c :: cs, x.1.URL.Path = p) →
      (runStats m (c :: cs)).2 p
          = some (wrapInt64 (m.read p + ((c :: cs).map (fun x => x.2.ContentLength)).sum)) ∧
      (runStats m (c :: cs)).1.getLast?
          = some (wrapInt64 (m.read p + ((c :: cs).map (fun x => x.2.ContentLength)).sum)) := by
  intro cs
  induction cs with
  | nil =>
    intro c m h
    have hc : c.1.URL.Path = p := h c (by simp)
    simp [runStats, updateStats, add64, hc, Ledger.store]
  | cons d ds ih =>
    intro c m h
    have hc : c.1.URL.Path = p := h c (by simp)
    have hrest : ∀ x ∈ d :: ds, x.1.URL.Path = p := fun x hx => h x (List.mem_cons_of_mem _ hx)
    have key := ih d (updateStats m c.1 c.2).2 hrest
    have hread : Ledger.read (updateStats m c.1 c.2).2 p
        = wrapInt64 (m.read p + c.2.ContentLength) := by
      simp [updateStats, add64, hc, Ledger.read_store_same]
    rw [hread, wrapInt64_add_left] at key
    have hsum : m.read p + ((c :: d :: ds).map (fun x => x.2.ContentLength)).sum
        = m.read p + c.2.ContentLength + ((d :: ds).map (fun x => x.2.ContentLength)).sum := by
      simp [List.map_cons, List.sum_cons, add_assoc]
    rw [hsum]
    constructor
    · show (runStats (updateStats m c.1 c.2).2 (d :: ds)).2 p = _
      exact key.1
    · show ((updateStats m c.1 c.2).1 :: (runStats (updateStats m c.1 c.2).2 (d :: ds)).1).getLast?
          = _
      have hcons : (runStats (updateStats m c.1 c.2).2 (d :: ds)).1
          = (updateStats (updateStats m c.1 c.2).2 d.1 d.2).1
            :: (runStats (updateStats (updateStats m c.1 c.2).2 d.1 d.2).2 ds).1 := rfl
      rw [← key.2, hcons, List.getLast?_cons_cons]

theorem pathBytes_append (q : String) (a b : List (http.Request × http.Response)) :
    pathBytes q (a ++ b) = pathBytes q a + pathBytes q b := by
  simp [pathBytes, List.filter_append, List.map_append, List.sum_append]

theorem pathBytes_single (q : String) (c : http.Request × http.Response) :
    pathBytes q [c] = if c.1.URL.Path = q then c.2.ContentLength else 0 := by
  by_cases h : c.1.URL.Path = q <;> simp [pathBytes, List.filter, h]

theorem pathBytes_nonneg (q : String) :
    ∀ (l : List (http.Request × http.Response)), (∀ c ∈ l, 0 ≤ c.2.ContentLength) →
      0 ≤ pathBytes q l := by
  intro l
  induction l with
  | nil => intro _; simp [pathBytes]
  | cons c cs ih =>
    intro h
    have h1 : 0 ≤ pathBytes q [c] := by
      rw [pathBytes_single]
      split
      · exact h c (by simp)
      · exact le_refl 0
    have h2 : 0 ≤ pathBytes q cs := ih (fun x hx => h x (List.mem_cons_of_mem _ hx))
    have h3 : pathBytes q (c :: cs) = pathBytes q [c] + pathBytes q cs :=
      pathBytes_append q [c] cs
    omega

/-- While no content length is negative and no per-path sum leaves the `int64`
range, the total read for every path is the exact sum of the content lengths
recorded for it. -/
theorem runStats_read_exact :
    ∀ (cs l : List (http.Request × http.Response)) (m : Ledger),
      (∀ q, m.read q = pathBytes q l) →
      (∀ c ∈ l ++ cs, 0 ≤ c.2.ContentLength) →
      (∀ q, pathBytes q (l ++ cs) < 2 ^ 63) →
      ∀ q, Ledger.read (runStats m cs).2 q = pathBytes q (l ++ cs) := by
  intro cs
  induction cs with
  | nil =>
    intro l m hm _ _ q
    simpa [runStats] using hm q
  | cons c cs ih =>
    intro l m hm hnn hlt q
    have hassoc : l ++ c :: cs = (l ++ [c]) ++ cs := by simp
    have hstep : ∀ r, Ledger.read (updateStats m c.1 c.2).2 r = pathBytes r (l ++ [c]) := by
      intro r
      rw [pathBytes_append, pathBytes_single]
      by_cases hr : c.1.URL.Path = r
      · have hc0 : 0 ≤ c.2.ContentLength := hnn c (by simp)
        have hl0 : 0 ≤ pathBytes r l :=
          pathBytes_nonneg r l (fun x hx => hnn x (List.mem_append_left _ hx))
        have hcs0 : 0 ≤ pathBytes r cs :=
          pathBytes_nonneg r cs
            (fun x hx => hnn x (List.mem_append_right _ (List.mem_cons_of_mem _ hx)))
        have hbound := hlt r
        rw [hassoc, pathBytes_append, pathBytes_append, pathBytes_single, if_pos hr] at hbound
        subst hr
        simp only [updateStats, add64, Ledger.read_store_same, if_true, hm]
        exact wrapInt64_of_fits _ ⟨by omega, by omega⟩
      · simp only [updateStats, if_neg hr, add_zero]
        rw [Ledger.read_store_other _ _ _ _ (Ne.symm hr)]
        exact hm r
    have key := ih (l ++ [c]) (updateStats m c.1 c.2).2 hstep
      (by rw [← hassoc]; exact hnn) (by rw [← hassoc]; exact hlt) q
    rw [hassoc]
    exact key

/-! ## Lemmas on the handlers -/

/-- One successful iteration of the `part3` loop, then the rest of the run. -/
theorem part3_handleConnection_success (c : Part3.Cycle) (rest : List Part3.Cycle)
    (st : Part3.State) (req : http.Request) (conn : Nat) (resp : http.Response)
    (hreq : c.readRequest = .ok req) (hdial : c.dial = .ok conn)
    (hsend : c.reqWrite = none) (hresp : c.readResponse = .ok resp)
    (hwrite : c.respWrite = none) :
    Part3.handleConnection (c :: rest) st
      = Part3.handleConnection rest
          { requestBytes := (updateStats st.requestBytes req resp).2
            readCalls := st.readCalls + 1
            written := st.written ++ [{ resp with
              Header := http.Header.Set resp.Header "X-Bytes"
                (strconv.FormatInt (updateStats st.requestBytes req resp).1) }]
            log := st.log ++ [LogLine.proxied req.URL.Path resp.StatusCode]
            closed := st.closed } := by
  simp [Part3.handleConnection, hreq, hdial, hsend, hresp, hwrite]

/-- One successful iteration of the `part4` loop, then the rest of the run. -/
theorem part4_handleConnection_success (c : Part4.Cycle) (rest : List Part4.Cycle)
    (st : Part4.State) (req : http.Request) (be : Backend) (resp : http.Response)
    (hreq : c.readRequest = .ok req)
    (hbe : (getBackend c.backendQueue c.timedOut c.dial).2 = .ok be)
    (hsend : c.reqWrite = none) (hresp : c.readResponse = .ok resp)
    (hwrite : c.respWrite = none) :
    Part4.handleConnection (c :: rest) st
      = Part4.handleConnection rest
          { requestBytes := (updateStats st.requestBytes req resp).2
            readCalls := st.readCalls + 1
            written := st.written ++ [{ resp with
              Header := http.Header.Set resp.Header "X-Bytes"
                (strconv.FormatInt (updateStats st.requestBytes req resp).1) }]
            log := st.log ++ [LogLine.proxied req.URL.Path resp.StatusCode]
            spawned := st.spawned ++ [be]
            closed := st.closed } := by
  simp [Part4.handleConnection, hreq, hbe, hsend, hresp, hwrite]

/-- The `part3` handler only appends to what it has written. -/
theorem part3_handleConnection_written :
    ∀ (l : List Part3.Cycle) (st : Part3.State),
      ∃ more, (Part3.handleConnection l st).written = st.written ++ more := by
  intro l
  induction l with
  | nil => intro st; exact ⟨[], by simp [Part3.handleConnection]⟩
  | cons c rest ih =>
    intro st
    unfold Part3.handleConnection
    split
    · split
      · exact ⟨[], by simp⟩
      · exact ⟨[], by simp⟩
    · split
      · exact ih _
      · split
        · exact ih _
        · split
          · exact ih _
          · split
            · exact ih _
            · obtain ⟨more, hmore⟩ := ih _
              exact ⟨_, hmore.trans (List.append_assoc st.written [_] more)⟩

/-- The `part4` handler only appends to what it has written. -/
theorem part4_handleConnection_written :
    ∀ (l : List Part4.Cycle) (st : Part4.State),
      ∃ more, (Part4.handleConnection l st).written = st.written ++ more := by
  intro l
  induction l with
  | nil => intro st; exact ⟨[], by simp [Part4.handleConnection]⟩
  | cons c rest ih =>
    intro st
    unfold Part4.handleConnection
    split
    · split
      · exact ⟨[], by simp⟩
      · exact ⟨[], by simp⟩
    · split
      · exact ⟨[], by simp⟩
      · split
        · exact ih _
        · split
          · exact ih _
          · split
            · exact ih _
            · obtain ⟨more, hmore⟩ := ih _
              exact ⟨_, hmore.trans (List.append_assoc st.written [_] more)⟩

/-- Every run of the `part4` handler ends with the client connection closed. -/
theorem part4_handleConnection_closed :
    ∀ (l : List Part4.Cycle) (st : Part4.State), (Part4.handleConnection l st).closed = true := by
  intro l
  induction l with
  | nil => intro st; simp [Part4.handleConnection]
  | cons c rest ih =>
    intro st
    unfold Part4.handleConnection
    split
    · split <;> rfl
    · split
      · rfl
      · exact ih _

theorem getBackend_length_le (q : List Backend) (t : Bool) (dial : Except Error Nat) :
    (getBackend q t dial).1.length ≤ q.length := by
  unfold getBackend
  split
  · simp
  · split <;> simp

theorem queueBackend_length_le (q : List Backend) (be : Backend) (t : Bool)
    (h : q.length ≤ backendQueueCap) :
    (queueBackend q be t).1.length ≤ backendQueueCap := by
  unfold queueBackend
  split
  · rename_i hc
    simp only [List.length_append, List.length_singleton]
    omega
  · exact h

theorem Pool.step_bounded (s : Pool) (op : PoolOp)
    (h : s.backendQueue.length ≤ backendQueueCap) :
    (s.step op).backendQueue.length ≤ backendQueueCap := by
  cases op with
  | acquire t dial =>
    exact le_trans (getBackend_length_le s.backendQueue t dial) h
  | release be t =>
    exact queueBackend_length_le s.backendQueue be t h

theorem Pool.run_bounded :
    ∀ (ops : List PoolOp) (s : Pool), s.backendQueue.length ≤ backendQueueCap →
      (s.run ops).backendQueue.length ≤ backendQueueCap := by
  intro ops
  induction ops with
  | nil => intro s h; exact h
  | cons op ops ih =>
    intro s h
    exact ih (s.step op) (Pool.step_bounded s op h)

/-! ## Claims -/

/-- C1: `updateStats` is a read-add-store-return. For every ledger, request
and response it returns the `int64` sum of the total read for the request
path (zero if absent) and the content length of the response, the ledger
afterwards maps the path to exactly the returned value, and the `int64` sum is
the integer sum whenever that fits in an `int64`. -/
theorem updateStats_read_add_store_return (m : Ledger) (req : http.Request)
    (resp : http.Response) :
    (updateStats m req resp).1
        = add64 (match m req.URL.Path with | some t => t | none => 0) resp.ContentLength ∧
    (updateStats m req resp).2 req.URL.Path = some (updateStats m req resp).1 ∧
    (-2 ^ 63 ≤ m.read req.URL.Path + resp.ContentLength ∧
        m.read req.URL.Path + resp.ContentLength < 2 ^ 63 →
      (updateStats m req resp).1 = m.read req.URL.Path + resp.ContentLength) := by
  refine ⟨?_, ?_, ?_⟩
  · simp only [updateStats, Ledger.read]
    cases m req.URL.Path <;> rfl
  · simp [updateStats, Ledger.store]
  · intro h
    simp only [updateStats, add64]
    exact wrapInt64_of_fits _ h

/-- Witness of C1: on the empty ledger a response of 10 bytes for `/a` makes
`updateStats` return `0 + 10`. -/
theorem updateStats_read_add_store_return_witness :
    (-2 ^ 63 ≤ Ledger.init.read (getRequest "/a").URL.Path + (okResponse 10).ContentLength ∧
      Ledger.init.read (getRequest "/a").URL.Path + (okResponse 10).ContentLength < 2 ^ 63) ∧
    (updateStats Ledger.init (getRequest "/a") (okResponse 10)).1
      = Ledger.init.read (getRequest "/a").URL.Path + (okResponse 10).ContentLength :=
  ⟨by decide,
   (updateStats_read_add_store_return Ledger.init (getRequest "/a") (okResponse 10)).2.2
     (by decide)⟩

/-- C2: no lost updates. For every ledger, path `p` and non-empty list of
calls for `p`, when the calls take effect in any order the entry stored for
`p` is the `int64` sum of the previous total (zero if absent) and all the
content lengths, the last call to take effect returns that value, and it is
the integer sum whenever that fits in an `int64`. -/
theorem updateStats_no_lost_update (m : Ledger) (p : String)
    (calls order : List (http.Request × http.Response))
    (hperm : order.Perm calls) (hpath : ∀ c ∈ calls, c.1.URL.Path = p) (hne : calls ≠ []) :
    (runStats m order).2 p
        = some (wrapInt64 (m.read p + (calls.map (fun c => c.2.ContentLength)).sum)) ∧
    (runStats m order).1.getLast?
        = some (wrapInt64 (m.read p + (calls.map (fun c => c.2.ContentLength)).sum)) ∧
    (-2 ^ 63 ≤ m.read p + (calls.map (fun c => c.2.ContentLength)).sum ∧
        m.read p + (calls.map (fun c => c.2.ContentLength)).sum < 2 ^ 63 →
      (runStats m order).2 p
        = some (m.read p + (calls.map (fun c => c.2.ContentLength)).sum)) := by
  have hsum : (order.map (fun c => c.2.ContentLength)).sum
      = (calls.map (fun c => c.2.ContentLength)).sum := (hperm.map _).sum_eq
  have hpath' : ∀ c ∈ order, c.1.URL.Path = p := fun c hc => hpath c (hperm.subset hc)
  cases order with
  | nil => exact absurd hperm.symm.eq_nil hne
  | cons c cs =>
    have key := runStats_same_path p cs c m hpath'
    rw [hsum] at key
    refine ⟨key.1, key.2, ?_⟩
    intro hfit
    rw [key.1, wrapInt64_of_fits _ hfit]

/-- C3: isolation. A call of `updateStats` for a request whose path differs
from `p2` leaves the entry of `p2` as it was: present iff it was present, with
the same total. -/
theorem updateStats_isolation (m : Ledger) (req : http.Request) (resp : http.Response)
    (p2 : String) (h : req.URL.Path ≠ p2) :
    (updateStats m req resp).2 p2 = m p2 := by
  simp only [updateStats]
  exact Ledger.store_other _ _ _ _ (Ne.symm h)

/-- Witness of C3: a call for `/a` leaves the entry of `/b` as it was. -/
theorem updateStats_isolation_witness :
    (getRequest "/a").URL.Path ≠ "/b" ∧
    (updateStats (Ledger.init.store "/b" 7) (getRequest "/a") (okResponse 10)).2 "/b"
      = (Ledger.init.store "/b" 7) "/b" :=
  ⟨by decide,
   updateStats_isolation (Ledger.init.store "/b" 7) (getRequest "/a") (okResponse 10) "/b"
     (by decide)⟩

/-- Witness of C2: two calls for `/a` of 10 and 20 bytes on a ledger holding 5
for `/a`, taking effect in the opposite order. -/
theorem updateStats_no_lost_update_witness :
    (runStats (Ledger.init.store "/a" 5)
        [(getRequest "/a", okResponse 20), (getRequest "/a", okResponse 10)]).2 "/a"
      = some (wrapInt64 ((Ledger.init.store "/a" 5).read "/a"
          + ([(getRequest "/a", okResponse 10), (getRequest "/a", okResponse 20)].map
              (fun c => c.2.ContentLength)).sum)) :=
  (updateStats_no_lost_update (Ledger.init.store "/a" 5) "/a"
    [(getRequest "/a", okResponse 10), (getRequest "/a", okResponse 20)]
    [(getRequest "/a", okResponse 20), (getRequest "/a", okResponse 10)]
    (List.Perm.swap _ _ _)
    (by
      intro c hc
      simp only [List.mem_cons, List.mem_singleton, List.not_mem_nil, or_false] at hc
      rcases hc with rfl | rfl <;> rfl)
    (List.cons_ne_nil _ _)).1

/-- C5, as stated, fails: on the empty ledger one response of unknown length
leaves the negative total `-1`; after a response of 10 bytes a response of
unknown length lowers the total of the path from 10 to 9; and two responses
declaring `2 ^ 63 - 1` bytes leave the total `-2`. -/
theorem stats_nonneg_monotone_counterexample :
    (runStats Ledger.init [(getRequest "/a", streamingResponse)]).2 "/a" = some (-1) ∧
    ¬ (0 ≤ Ledger.read (runStats Ledger.init [(getRequest "/a", streamingResponse)]).2 "/a") ∧
    ¬ (Ledger.read (runStats Ledger.init [(getRequest "/a", okResponse 10)]).2 "/a"
        ≤ Ledger.read (updateStats (runStats Ledger.init [(getRequest "/a", okResponse 10)]).2
            (getRequest "/a") streamingResponse).2 "/a") ∧
    (runStats Ledger.init
        [(getRequest "/a", hugeResponse), (getRequest "/a", hugeResponse)]).2 "/a"
      = some (-2) := by
  refine ⟨by decide, by decide, by decide, by decide⟩

/-- C5, amended: starting from the empty ledger, along any sequence of
`updateStats` calls in which no content length is negative and the content
lengths recorded for each path sum to less than `2 ^ 63`, every total stored
after a call is non-negative and, for every path, the total after a call is at
least the total before it. -/
theorem stats_nonneg_monotone (calls : List (http.Request × http.Response))
    (hknown : ∀ c ∈ calls, 0 ≤ c.2.ContentLength)
    (hfit : ∀ q, pathBytes q calls < 2 ^ 63)
    (pre post : List (http.Request × http.Response)) (c : http.Request × http.Response)
    (hsplit : calls = pre ++ c :: post) :
    (∀ q v, (updateStats (runStats Ledger.init pre).2 c.1 c.2).2 q = some v → 0 ≤ v) ∧
    (∀ q, Ledger.read (runStats Ledger.init pre).2 q
        ≤ Ledger.read (updateStats (runStats Ledger.init pre).2 c.1 c.2).2 q) := by
  subst hsplit
  have hassoc : pre ++ c :: post = (pre ++ [c]) ++ post := by simp
  have hpre0 : ∀ x ∈ pre, 0 ≤ x.2.ContentLength :=
    fun x hx => hknown x (List.mem_append_left _ hx)
  have hc0 : ∀ x ∈ [c], 0 ≤ x.2.ContentLength := by
    intro x hx
    exact hknown x (List.mem_append_right _ (by
      rw [List.mem_singleton] at hx
      rw [hx]
      exact List.mem_cons_self _ _))
  have hpost0 : ∀ x ∈ post, 0 ≤ x.2.ContentLength :=
    fun x hx => hknown x (List.mem_append_right _ (List.mem_cons_of_mem _ hx))
  have hpc0 : ∀ x ∈ pre ++ [c], 0 ≤ x.2.ContentLength := by
    intro x hx
    rcases List.mem_append.mp hx with h | h
    · exact hpre0 x h
    · exact hc0 x h
  have hpclt : ∀ q, pathBytes q (pre ++ [c]) < 2 ^ 63 := by
    intro q
    have h1 := hfit q
    rw [hassoc, pathBytes_append] at h1
    have h2 := pathBytes_nonneg q post hpost0
    omega
  have hprelt : ∀ q, pathBytes q pre < 2 ^ 63 := by
    intro q
    have h1 := hpclt q
    rw [pathBytes_append] at h1
    have h2 := pathBytes_nonneg q [c] hc0
    omega
  have hbefore : ∀ q, Ledger.read (runStats Ledger.init pre).2 q = pathBytes q pre := by
    intro q
    have := runStats_read_exact pre [] Ledger.init (fun r => by simp [Ledger.read, Ledger.init, pathBytes])
      (by simpa using hpre0) (by simpa using hprelt) q
    simpa using this
  have hafter : ∀ q, Ledger.read (updateStats (runStats Ledger.init pre).2 c.1 c.2).2 q
      = pathBytes q (pre ++ [c]) := by
    intro q
    exact runStats_read_exact [c] pre (runStats Ledger.init pre).2 hbefore hpc0 hpclt q
  constructor
  · intro q v hv
    have h1 := hafter q
    have h2 := pathBytes_nonneg q (pre ++ [c]) hpc0
    simp only [Ledger.read, hv, Option.getD_some] at h1
    omega
  · intro q
    rw [hbefore, hafter, pathBytes_append]
    have := pathBytes_nonneg q [c] hc0
    omega

/-- Witness of C5 (amended): responses of 10, 7 and 10 bytes for `/a`, `/b`
and `/a`, looked at around the third call. -/
theorem stats_nonneg_monotone_witness :
    (∀ q v, (updateStats (runStats Ledger.init
        [(getRequest "/a", okResponse 10), (getRequest "/b", okResponse 7)]).2
        (getRequest "/a") (okResponse 10)).2 q = some v → 0 ≤ v) ∧
    (∀ q, Ledger.read (runStats Ledger.init
        [(getRequest "/a", okResponse 10), (getRequest "/b", okResponse 7)]).2 q
      ≤ Ledger.read (updateStats (runStats Ledger.init
        [(getRequest "/a", okResponse 10), (getRequest "/b", okResponse 7)]).2
        (getRequest "/a") (okResponse 10)).2 q) :=
  stats_nonneg_monotone
    [(getRequest "/a", okResponse 10), (getRequest "/b", okResponse 7),
      (getRequest "/a", okResponse 10)]
    (by
      intro c hc
      simp only [List.mem_cons, List.mem_singleton, List.not_mem_nil, or_false] at hc
      rcases hc with rfl | rfl | rfl <;> decide)
    (by
      intro q
      simp only [pathBytes, List.filter, getRequest, okResponse]
      by_cases ha : "/a" = q <;> by_cases hb : "/b" = q <;> simp [ha, hb])
    [(getRequest "/a", okResponse 10), (getRequest "/b", okResponse 7)] []
    (getRequest "/a", okResponse 10) rfl

/-- C6, as stated, fails: on the empty ledger a response of unknown length
(`ContentLength = -1`) for `/a` makes `updateStats` return and store `-1`,
not the total `0` the path had before. -/
theorem updateStats_unknown_length_counterexample :
    Ledger.init.read "/a" = 0 ∧
    (updateStats Ledger.init (getRequest "/a") streamingResponse).1 = -1 ∧
    (updateStats Ledger.init (getRequest "/a") streamingResponse).2 "/a" = some (-1) ∧
    (updateStats Ledger.init (getRequest "/a") streamingResponse).1 ≠ Ledger.init.read "/a" := by
  refine ⟨by decide, by decide, by decide, by decide⟩

/-- C6, amended: a response of unknown length (`ContentLength = -1`) counts
as minus one byte. For every ledger and request, `updateStats` does not fail;
it returns and stores the `int64` sum of the previous total of the path (zero
if absent) and `-1`, which is the previous total minus one unless that total
is the least `int64`. -/
theorem updateStats_unknown_length (m : Ledger) (req : http.Request) (resp : http.Response)
    (hunknown : resp.ContentLength = -1) :
    (updateStats m req resp).1 = add64 (m.read req.URL.Path) (-1) ∧
    (updateStats m req resp).2 req.URL.Path = some (add64 (m.read req.URL.Path) (-1)) ∧
    (-2 ^ 63 < m.read req.URL.Path ∧ m.read req.URL.Path < 2 ^ 63 →
      (updateStats m req resp).1 = m.read req.URL.Path - 1) := by
  refine ⟨?_, ?_, ?_⟩
  · simp [updateStats, hunknown]
  · simp [updateStats, hunknown, Ledger.store]
  · intro h
    simp only [updateStats, hunknown, add64]
    rw [wrapInt64_of_fits _ ⟨by omega, by omega⟩]
    rfl

/-- Witness of C6 (amended): on a ledger holding 10 for `/a`, a response of
unknown length makes `updateStats` return 9. -/
theorem updateStats_unknown_length_witness :
    streamingResponse.ContentLength = -1 ∧
    (updateStats (Ledger.init.store "/a" 10) (getRequest "/a") streamingResponse).1
      = (Ledger.init.store "/a" 10).read (getRequest "/a").URL.Path - 1 :=
  ⟨rfl,
   (updateStats_unknown_length (Ledger.init.store "/a" 10) (getRequest "/a") streamingResponse
      rfl).2.2 (by decide)⟩

/-- C4: the `X-Bytes` header of a proxied response is the decimal string of
the total of the path after the content length of this response has been
added. In a successful iteration of the `part4` handler the response written
to the client carries as `X-Bytes` the formatted total that the ledger holds
for the request path after the update, which is the `int64` sum of the
previous total and the content length. From the empty ledger, two successive
successful iterations for `/a` with responses declaring 10 bytes write
responses carrying `X-Bytes: 10` and then `X-Bytes: 20`. -/
theorem handleConnection_x_bytes :
    (∀ (c : Part4.Cycle) (rest : List Part4.Cycle) (st : Part4.State) (req : http.Request)
        (be : Backend) (resp : http.Response),
      c.readRequest = .ok req →
      (getBackend c.backendQueue c.timedOut c.dial).2 = .ok be →
      c.reqWrite = none → c.readResponse = .ok resp → c.respWrite = none →
      ∃ out more,
        (Part4.handleConnection (c :: rest) st).written = st.written ++ out :: more ∧
        out.Header "X-Bytes"
          = some [strconv.FormatInt
              (Ledger.read (updateStats st.requestBytes req resp).2 req.URL.Path)] ∧
        Ledger.read (updateStats st.requestBytes req resp).2 req.URL.Path
          = add64 (st.requestBytes.read req.URL.Path) resp.ContentLength) ∧
    (Part4.handleConnection
        [Part4.okCycle "/a" [] 1 10, Part4.okCycle "/a" [⟨1⟩] 2 10] Part4.State.init).written.map
        (fun r => (r.StatusCode, r.Header "X-Bytes"))
      = [(200, some ["10"]), (200, some ["20"])] := by
  constructor
  · intro c rest st req be resp hreq hbe hsend hresp hwrite
    rw [part4_handleConnection_success c rest st req be resp hreq hbe hsend hresp hwrite]
    obtain ⟨more, hmore⟩ := part4_handleConnection_written rest
      { requestBytes := (updateStats st.requestBytes req resp).2
        readCalls := st.readCalls + 1
        written := st.written ++ [{ resp with
          Header := http.Header.Set resp.Header "X-Bytes"
            (strconv.FormatInt (updateStats st.requestBytes req resp).1) }]
        log := st.log ++ [LogLine.proxied req.URL.Path resp.StatusCode]
        spawned := st.spawned ++ [be]
        closed := st.closed }
    refine ⟨_, more, hmore.trans (List.append_assoc st.written [_] more), ?_, ?_⟩
    · simp [http.Header.Set, updateStats, Ledger.read_store_same]
    · simp [updateStats, Ledger.read_store_same]
  · decide

/-- Witness of C4: the first iteration of the two-request scenario. -/
theorem handleConnection_x_bytes_witness :
    ∃ out more,
      (Part4.handleConnection
          [Part4.okCycle "/a" [] 1 10, Part4.okCycle "/a" [⟨1⟩] 2 10] Part4.State.init).written
        = Part4.State.init.written ++ out :: more ∧
      out.Header "X-Bytes"
        = some [strconv.FormatInt
            (Ledger.read (updateStats Part4.State.init.requestBytes (getRequest "/a")
              (okResponse 10)).2 (getRequest "/a").URL.Path)] ∧
      Ledger.read (updateStats Part4.State.init.requestBytes (getRequest "/a")
          (okResponse 10)).2 (getRequest "/a").URL.Path
        = add64 (Part4.State.init.requestBytes.read (getRequest "/a").URL.Path)
            (okResponse 10).ContentLength :=
  handleConnection_x_bytes.1 (Part4.okCycle "/a" [] 1 10) [Part4.okCycle "/a" [⟨1⟩] 2 10]
    Part4.State.init (getRequest "/a") ⟨1⟩ (okResponse 10) rfl rfl rfl rfl rfl

/-- C7: in the `part4` handler, when acquiring a backend fails the loop ends
and the client connection is closed, no response is written for the request,
no further request is read and the ledger is unchanged. With an empty pool and
a failing dial `getBackend` returns the error of the dial and leaves the pool
empty. -/
theorem handleConnection_acquire_failure :
    (∀ (t : Bool) (err : Error), getBackend [] t (.error err) = ([], .error err)) ∧
    (∀ (c : Part4.Cycle) (rest : List Part4.Cycle) (st : Part4.State) (req : http.Request)
        (err : Error),
      c.readRequest = .ok req →
      (getBackend c.backendQueue c.timedOut c.dial).2 = .error err →
      (Part4.handleConnection (c :: rest) st).closed = true ∧
      (Part4.handleConnection (c :: rest) st).written = st.written ∧
      (Part4.handleConnection (c :: rest) st).readCalls = st.readCalls + 1 ∧
      (Part4.handleConnection (c :: rest) st).requestBytes = st.requestBytes) := by
  constructor
  · intro t err
    cases t <;> rfl
  · intro c rest st req err hreq hbe
    simp [Part4.handleConnection, hreq, hbe]

/-- Witness of C7: the backend is unreachable for a first request `GET /a`
on a fresh process; a second request waits on the connection. -/
theorem handleConnection_acquire_failure_witness :
    (Part4.handleConnection [Part4.unreachableCycle "/a", Part4.okCycle "/a" [] 1 10]
        Part4.State.init).closed = true ∧
    (Part4.handleConnection [Part4.unreachableCycle "/a", Part4.okCycle "/a" [] 1 10]
        Part4.State.init).written = Part4.State.init.written ∧
    (Part4.handleConnection [Part4.unreachableCycle "/a", Part4.okCycle "/a" [] 1 10]
        Part4.State.init).readCalls = Part4.State.init.readCalls + 1 ∧
    (Part4.handleConnection [Part4.unreachableCycle "/a", Part4.okCycle "/a" [] 1 10]
        Part4.State.init).requestBytes = Part4.State.init.requestBytes :=
  handleConnection_acquire_failure.2 (Part4.unreachableCycle "/a")
    [Part4.okCycle "/a" [] 1 10] Part4.State.init (getRequest "/a")
    (.other "connection refused") rfl rfl

/-- C8: pass-through. In a successful iteration of the `part3` handler and of
the `part4` handler, the response written to the client is the response of the
backend with the `X-Bytes` header set and nothing else changed: same status
code, same body, and the same values for every header other than `X-Bytes`. -/
theorem handleConnection_pass_through :
    (∀ (c : Part3.Cycle) (rest : List Part3.Cycle) (st : Part3.State) (req : http.Request)
        (conn : Nat) (resp : http.Response),
      c.readRequest = .ok req → c.dial = .ok conn →
      c.reqWrite = none → c.readResponse = .ok resp → c.respWrite = none →
      ∃ out more,
        (Part3.handleConnection (c :: rest) st).written = st.written ++ out :: more ∧
        out.StatusCode = resp.StatusCode ∧ out.Body = resp.Body ∧
        (∀ k, k ≠ "X-Bytes" → out.Header k = resp.Header k) ∧
        ∃ v, out = { resp with Header := http.Header.Set resp.Header "X-Bytes" v }) ∧
    (∀ (c : Part4.Cycle) (rest : List Part4.Cycle) (st : Part4.State) (req : http.Request)
        (be : Backend) (resp : http.Response),
      c.readRequest = .ok req →
      (getBackend c.backendQueue c.timedOut c.dial).2 = .ok be →
      c.reqWrite = none → c.readResponse = .ok resp → c.respWrite = none →
      ∃ out more,
        (Part4.handleConnection (c :: rest) st).written = st.written ++ out :: more ∧
        out.StatusCode = resp.StatusCode ∧ out.Body = resp.Body ∧
        (∀ k, k ≠ "X-Bytes" → out.Header k = resp.Header k) ∧
        ∃ v, out = { resp with Header := http.Header.Set resp.Header "X-Bytes" v }) := by
  constructor
  · intro c rest st req conn resp hreq hdial hsend hresp hwrite
    rw [part3_handleConnection_success c rest st req conn resp hreq hdial hsend hresp hwrite]
    obtain ⟨more, hmore⟩ := part3_handleConnection_written rest
      { requestBytes := (updateStats st.requestBytes req resp).2
        readCalls := st.readCalls + 1
        written := st.written ++ [{ resp with
          Header := http.Header.Set resp.Header "X-Bytes"
            (strconv.FormatInt (updateStats st.requestBytes req resp).1) }]
        log := st.log ++ [LogLine.proxied req.URL.Path resp.StatusCode]
        closed := st.closed }
    refine ⟨_, more, hmore.trans (List.append_assoc st.written [_] more), rfl, rfl, ?_,
      ⟨_, rfl⟩⟩
    intro k hk
    simp [http.Header.Set, hk]
  · intro c rest st req be resp hreq hbe hsend hresp hwrite
    rw [part4_handleConnection_success c rest st req be resp hreq hbe hsend hresp hwrite]
    obtain ⟨more, hmore⟩ := part4_handleConnection_written rest
      { requestBytes := (updateStats st.requestBytes req resp).2
        readCalls := st.readCalls + 1
        written := st.written ++ [{ resp with
          Header := http.Header.Set resp.Header "X-Bytes"
            (strconv.FormatInt (updateStats st.requestBytes req resp).1) }]
        log := st.log ++ [LogLine.proxied req.URL.Path resp.StatusCode]
        spawned := st.spawned ++ [be]
        closed := st.closed }
    refine ⟨_, more, hmore.trans (List.append_assoc st.written [_] more), rfl, rfl, ?_,
      ⟨_, rfl⟩⟩
    intro k hk
    simp [http.Header.Set, hk]

/-- Witness of C8: a successful iteration for `GET /a` with a response of 10
bytes, in the `part4` handler on a fresh process. -/
theorem handleConnection_pass_through_witness :
    ∃ out more,
      (Part4.handleConnection [Part4.okCycle "/a" [] 1 10] Part4.State.init).written
        = Part4.State.init.written ++ out :: more ∧
      out.StatusCode = (okResponse 10).StatusCode ∧ out.Body = (okResponse 10).Body ∧
      (∀ k, k ≠ "X-Bytes" → out.Header k = (okResponse 10).Header k) ∧
      ∃ v, out = { okResponse 10 with
        Header := http.Header.Set (okResponse 10).Header "X-Bytes" v } :=
  handleConnection_pass_through.2 (Part4.okCycle "/a" [] 1 10) [] Part4.State.init
    (getRequest "/a") ⟨1⟩ (okResponse 10) rfl rfl rfl rfl rfl

/-- C9, as stated, fails: when writing the request to the backend fails, when
parsing the response of the backend fails, and when writing the response to
the client fails, the `part4` handler reads the next request of the connection
and serves it. In each run below the first iteration fails in one of the
three ways and the second succeeds: `http.ReadRequest` is called three times
(two requests and the end of the stream) and one response is written. -/
theorem handleConnection_failure_counterexample :
    ((Part4.handleConnection
        [{ Part4.okCycle "/a" [] 1 10 with reqWrite := some (.other "broken pipe") },
          Part4.okCycle "/b" [⟨1⟩] 2 10] Part4.State.init).readCalls = 3 ∧
      (Part4.handleConnection
        [{ Part4.okCycle "/a" [] 1 10 with reqWrite := some (.other "broken pipe") },
          Part4.okCycle "/b" [⟨1⟩] 2 10] Part4.State.init).written.length = 1) ∧
    ((Part4.handleConnection
        [{ Part4.okCycle "/a" [] 1 10 with readResponse := .error (.other "malformed") },
          Part4.okCycle "/b" [⟨1⟩] 2 10] Part4.State.init).readCalls = 3 ∧
      (Part4.handleConnection
        [{ Part4.okCycle "/a" [] 1 10 with readResponse := .error (.other "malformed") },
          Part4.okCycle "/b" [⟨1⟩] 2 10] Part4.State.init).written.length = 1) ∧
    ((Part4.handleConnection
        [{ Part4.okCycle "/a" [] 1 10 with respWrite := some (.other "broken pipe") },
          Part4.okCycle "/b" [⟨1⟩] 2 10] Part4.State.init).readCalls = 3 ∧
      (Part4.handleConnection
        [{ Part4.okCycle "/a" [] 1 10 with respWrite := some (.other "broken pipe") },
          Part4.okCycle "/b" [⟨1⟩] 2 10] Part4.State.init).written.length = 1) := by
  refine ⟨⟨by decide, by decide⟩, ⟨by decide, by decide⟩, ⟨by decide, by decide⟩⟩

/-- C9, amended: in the `part4` handler a failure of writing the request to
the backend, of parsing the response of the backend or of writing the
response to the client does not end the loop. No response is written and
nothing is logged for that request, the ledger is updated only when the
response was parsed, the backend is handed to `queueBackend`, and the handler
goes on with the next request of the connection; the connection is closed
when the loop ends later. -/
theorem handleConnection_failure_continues (c : Part4.Cycle) (rest : List Part4.Cycle)
    (st : Part4.State) (req : http.Request) (be : Backend)
    (hreq : c.readRequest = .ok req)
    (hbe : (getBackend c.backendQueue c.timedOut c.dial).2 = .ok be)
    (hfail : c.reqWrite ≠ none ∨ (∃ err, c.readResponse = .error err) ∨ c.respWrite ≠ none) :
    Part4.handleConnection (c :: rest) st
      = Part4.handleConnection rest
          { requestBytes :=
              match c.reqWrite, c.readResponse with
              | none, .ok resp => (updateStats st.requestBytes req resp).2
              | _, _ => st.requestBytes
            readCalls := st.readCalls + 1
            written := st.written
            log := st.log
            spawned := st.spawned ++ [be]
            closed := st.closed } ∧
    (Part4.handleConnection (c :: rest) st).closed = true := by
  refine ⟨?_, part4_handleConnection_closed _ _⟩
  rw [Part4.handleConnection]
  simp only [hreq, hbe]
  cases hsend : c.reqWrite with
  | some e => rfl
  | none =>
    cases hresp : c.readResponse with
    | error e => rfl
    | ok resp =>
      cases hwrite : c.respWrite with
      | some e => rfl
      | none =>
        rcases hfail with h | ⟨e, h⟩ | h
        · exact absurd hsend h
        · rw [hresp] at h; cases h
        · exact absurd hwrite h

/-- Witness of C9 (amended): writing the request `GET /a` to the backend
fails, and the request `GET /b` waits on the connection. -/
theorem handleConnection_failure_continues_witness :
    Part4.handleConnection
        [{ Part4.okCycle "/a" [] 1 10 with reqWrite := some (.other "broken pipe") },
          Part4.okCycle "/b" [⟨1⟩] 2 10] Part4.State.init
      = Part4.handleConnection [Part4.okCycle "/b" [⟨1⟩] 2 10]
          { requestBytes := Part4.State.init.requestBytes
            readCalls := Part4.State.init.readCalls + 1
            written := Part4.State.init.written
            log := Part4.State.init.log
            spawned := Part4.State.init.spawned ++ [⟨1⟩]
            closed := Part4.State.init.closed } ∧
    (Part4.handleConnection
        [{ Part4.okCycle "/a" [] 1 10 with reqWrite := some (.other "broken pipe") },
          Part4.okCycle "/b" [⟨1⟩] 2 10] Part4.State.init).closed = true :=
  handleConnection_failure_continues
    { Part4.okCycle "/a" [] 1 10 with reqWrite := some (.other "broken pipe") }
    [Part4.okCycle "/b" [⟨1⟩] 2 10] Part4.State.init (getRequest "/a") ⟨1⟩ rfl rfl
    (Or.inl (by simp [Part4.okCycle]))

/-- C10: pool bound. The capacity of `backendQueue` is 10; starting from the
empty pool, after any sequence of `getBackend` and `queueBackend` steps the
queue holds at most 10 connections; `queueBackend` on a queue that is at
capacity leaves the queue as it is and closes the connection; and
`getBackend` receiving from a non-empty queue returns its oldest connection
and removes exactly that one. -/
theorem backendQueue_bounded :
    backendQueueCap = 10 ∧
    (∀ ops : List PoolOp, (Pool.init.run ops).backendQueue.length ≤ 10) ∧
    (∀ (q : List Backend) (be : Backend) (t : Bool), q.length = 10 →
      queueBackend q be t = (q, some be)) ∧
    (∀ (be : Backend) (rest : List Backend) (dial : Except Error Nat),
      getBackend (be :: rest) false dial = (rest, .ok be) ∧
      (getBackend (be :: rest) false dial).1.length + 1 = (be :: rest).length) := by
  refine ⟨rfl, ?_, ?_, ?_⟩
  · intro ops
    exact Pool.run_bounded ops Pool.init (by decide)
  · intro q be t h
    simp [queueBackend, backendQueueCap, h]
  · intro be rest dial
    exact ⟨rfl, rfl⟩

/-- Witness of C10: releasing an eleventh connection into a full queue. -/
theorem backendQueue_bounded_witness :
    fullQueue.length = 10 ∧ queueBackend fullQueue ⟨10⟩ false = (fullQueue, some ⟨10⟩) :=
  ⟨by decide, backendQueue_bounded.2.2.1 fullQueue ⟨10⟩ false (by decide)⟩

end GoBasicProxy
